import Mathlib

/-!
Verification of the SIHP-IntelRisk clustering-and-aggregation engine.

The definitions below are a shallow embedding of the Python sources
src/checker/checker_fixed.py and src/detecter/detecter_fixed.py.
Python floats are modelled as rationals, optional values as Option,
and Python string helpers (str.lower, str.strip, single-character
str.replace) are re-implemented over character lists so that they
evaluate inside the kernel.  External library calls that are not part
of this repository (rapidfuzz token_set_ratio, datetime.strptime,
the sklearn DBSCAN neighbourhood metric, the HTTP transport) are
modelled as explicit function parameters, so every theorem quantifies
over their behaviour unless the claim pins a concrete instance.
-/

namespace SIHP

/-- Python str.lower, modelled character-wise (ASCII-faithful). -/
def pyLower (s : String) : String := ⟨s.data.map Char.toLower⟩

/-- Python str.strip with no argument: remove leading and trailing whitespace. -/
def pyStrip (s : String) : String :=
  ⟨((s.data.dropWhile Char.isWhitespace).reverse.dropWhile Char.isWhitespace).reverse⟩

/-- Python s.replace for a single-character pattern, here replace(" ", "_"). -/
def pyReplaceSpaceUnderscore (s : String) : String :=
  ⟨s.data.map (fun c => if c = ' ' then '_' else c)⟩

/-- Python truthiness of an optional string: None and the empty string are falsy. -/
def truthyStr : Option String → Bool
  | some s => s ≠ ""
  | none => false

end SIHP

namespace Checker

open SIHP

/-- Report schema from checker_fixed.py (pydantic BaseModel); confidence is a
float in the code, modelled as a rational. -/
structure Report where
  event_type : Option String := none
  location : Option String := none
  timestamp : Option String := none
  description : Option String := none
  source : Option String := none
  media_urls : List String := []
  reporter : Option String := none
  confidence : Option ℚ := none
  veracity_flag : Option String := none
deriving DecidableEq, Repr

/-- Configuration of CheckerA.  The thresholds and window mirror
CheckerA.__init__.  The fields sim and parseTs abstract the two external
collaborators: rapidfuzz fuzz.token_set_ratio (a score in [0,100]) and
datetime.strptime with format %Y-%m-%dT%H:%M:%SZ (an epoch-second value,
none when parsing fails). -/
structure Config where
  trusted_sources : List String
  event_type_similarity_threshold : ℚ
  location_similarity_threshold : ℚ
  description_similarity_threshold : ℚ
  time_window_seconds : ℤ
  sim : String → String → ℚ
  parseTs : String → Option ℤ

/-- CheckerA.normalize_source: None/empty stays None, otherwise
strip, lowercase, and replace spaces with underscores. -/
def normalize_source (s : Option String) : Option String :=
  match s with
  | none => none
  | some s => if s = "" then none else some (pyReplaceSpaceUnderscore (pyLower (pyStrip s)))

/-- CheckerA.is_source_trusted: the normalized source is truthy and belongs
to the trusted set. -/
def is_source_trusted (cfg : Config) (s : Option String) : Bool :=
  match normalize_source s with
  | some n => n ≠ "" && n ∈ cfg.trusted_sources
  | none => false

/-- CheckerA.similarity: 0 when either side is absent or empty, otherwise the
fuzzy score of the lowercased strings. -/
def similarity (cfg : Config) : Option String → Option String → ℚ
  | some a, some b => if a = "" ∨ b = "" then 0 else cfg.sim (pyLower a) (pyLower b)
  | _, _ => 0

/-- CheckerA.time_within_window: both timestamps must parse; the absolute
difference in seconds must be at most the window.  Any parse failure
(including a missing value) yields false. -/
def time_within_window (cfg : Config) : Option String → Option String → Bool
  | some t1, some t2 =>
    match cfg.parseTs t1, cfg.parseTs t2 with
    | some d1, some d2 => |d1 - d2| ≤ cfg.time_window_seconds
    | _, _ => false
  | _, _ => false

/-- Presence test used by the four field comparisons in _create_clusters:
the Python condition is the truthiness of both optional strings. -/
def fieldPresent (o : Option String) : Bool :=
  match o with
  | some s => s ≠ ""
  | none => false

/-- Body of the inner loop of CheckerA._create_clusters: compare a report
against a cluster anchor over up to four fields and apply the rule
total_fields > 0 and match_count >= max(2, total_fields // 2). -/
def cluster_match (cfg : Config) (report rep : Report) : Bool :=
  let p1 := fieldPresent report.event_type && fieldPresent rep.event_type
  let m1 := p1 && decide (cfg.event_type_similarity_threshold ≤ similarity cfg report.event_type rep.event_type)
  let p2 := fieldPresent report.location && fieldPresent rep.location
  let m2 := p2 && decide (cfg.location_similarity_threshold ≤ similarity cfg report.location rep.location)
  let p3 := fieldPresent report.timestamp && fieldPresent rep.timestamp
  let m3 := p3 && time_within_window cfg report.timestamp rep.timestamp
  let p4 := fieldPresent report.description && fieldPresent rep.description
  let m4 := p4 && decide (cfg.description_similarity_threshold ≤ similarity cfg report.description rep.description)
  let total_fields : ℕ :=
    (if p1 then 1 else 0) + (if p2 then 1 else 0) + (if p3 then 1 else 0) + (if p4 then 1 else 0)
  let match_count : ℕ :=
    (if m1 then 1 else 0) + (if m2 then 1 else 0) + (if m3 then 1 else 0) + (if m4 then 1 else 0)
  decide (0 < total_fields) && decide (max 2 (total_fields / 2) ≤ match_count)

/-- One step of the outer loop of _create_clusters: scan the clusters in
order, append the report to the first cluster whose anchor (first element)
matches, otherwise start a new singleton cluster at the end.  Generic in
the element type and the anchor test. -/
def insertReport {α : Type} (m : α → α → Bool) : List (List α) → α → List (List α)
  | [], x => [[x]]
  | [] :: cs, x => [] :: insertReport m cs x
  | (anchor :: rest) :: cs, x =>
    if m x anchor then (anchor :: (rest ++ [x])) :: cs
    else (anchor :: rest) :: insertReport m cs x

/-- CheckerA._create_clusters: fold the reports in arrival order through
insertReport, starting from no clusters. -/
def create_clusters (cfg : Config) (reports : List Report) : List (List Report) :=
  reports.foldl (insertReport (cluster_match cfg)) []

/-- Python r.confidence or 0 used as the max key in process_clusters. -/
def confVal (r : Report) : ℚ := r.confidence.getD 0

/-- Python max(xs, key) over a non-empty iterable, accumulator form: a later
element replaces the current best only when its key is strictly larger, so
ties are broken in favour of the first occurrence. -/
def argmaxAcc {α β : Type} [LinearOrder β] (key : α → β) : α → List α → α
  | best, [] => best
  | best, x :: xs => argmaxAcc key (if key best < key x then x else best) xs

/-- Python sum(self.is_source_trusted(r.source) for r in cluster). -/
def trusted_count (cfg : Config) (cluster : List Report) : ℕ :=
  (cluster.filter (fun r => is_source_trusted cfg r.source)).length

/-- Branch chain at the top of the loop body of CheckerA.process_clusters:
accept a single trusted report, accept any cluster of size at least two,
reject when there are zero trusted sources and fewer than two reports, and
(unreachably) accept anything else. -/
def accept_cluster (cfg : Config) (cluster : List Report) : Bool :=
  let trusted := trusted_count cfg cluster
  let total := cluster.length
  if 1 ≤ trusted ∧ total = 1 then true
  else if 2 ≤ total then true
  else if trusted = 0 ∧ total < 2 then false
  else true

/-- Mutation applied to the representative in process_clusters: default an
empty/absent reporter to "unknown" and set veracity_flag to "verified". -/
def verify_report (r : Report) : Report :=
  let r1 := if SIHP.truthyStr r.reporter then r else { r with reporter := some "unknown" }
  { r1 with veracity_flag := some "verified" }

/-- Python max(cluster, key=lambda r: r.confidence or 0) on a cons cell. -/
def best_report (h : Report) (t : List Report) : Report := argmaxAcc confVal h t

/-- Loop body of CheckerA.process_clusters for one cluster: None models the
filtered (rejected) case.  The empty cluster is rejected by the
zero-trusted branch before max() is ever reached, matching the source. -/
def process_cluster (cfg : Config) : List Report → Option Report
  | [] => none
  | h :: t =>
    if accept_cluster cfg (h :: t) then some (verify_report (best_report h t)) else none

/-- CheckerA.process_clusters over all clusters. -/
def process_clusters (cfg : Config) (clusters : List (List Report)) : List Report :=
  clusters.filterMap (process_cluster cfg)

/-- CheckerA.run: cluster then verify. -/
def run (cfg : Config) (reports : List Report) : List Report :=
  process_clusters cfg (create_clusters cfg reports)

/-- Concrete configuration for witnesses and counterexamples: the defaults of
CheckerA.__init__, with the external fuzzy scorer specialised to exact string
matching (score 100 for equal lowercased strings, 0 otherwise, consistent
with token_set_ratio on the strings used below, for example
token_set_ratio("fire", "earthquake") is far below 60) and strptime
specialised to a lookup of the three timestamps used below, whose pairwise
second offsets match the real %Y-%m-%dT%H:%M:%SZ parse. -/
def cfgW : Config where
  trusted_sources := ["official_news_agency", "government_official", "well_known_media",
    "red_cross", "un_official_disaster_org"]
  event_type_similarity_threshold := 60
  location_similarity_threshold := 60
  description_similarity_threshold := 60
  time_window_seconds := 7200
  sim := fun a b => if a = b then 100 else 0
  parseTs := fun s =>
    if s = "2025-09-14T12:00:00Z" then some 0
    else if s = "2025-09-14T13:30:00Z" then some 5400
    else if s = "2025-09-14T15:00:00Z" then some 10800
    else none

/-- Interfering first report: same location as the two below, different
event_type, timestamp within the window of rB but not of rC. -/
def rA : Report :=
  { event_type := some "earthquake", location := some "Paris",
    timestamp := some "2025-09-14T12:00:00Z" }

/-- Second report: joins the cluster anchored at rA (location and timestamp
match its anchor). -/
def rB : Report :=
  { event_type := some "fire", location := some "Paris",
    timestamp := some "2025-09-14T13:30:00Z" }

/-- Third report: pairwise similar to rB on all three fields, but compared
against the anchor rA it matches only on location. -/
def rC : Report :=
  { event_type := some "fire", location := some "Paris",
    timestamp := some "2025-09-14T15:00:00Z" }

/-- Untrusted report with confidence 1, used in the process_clusters witness. -/
def rD : Report := { source := some "twitter_user", confidence := some 1 }

/-- Untrusted report without confidence, used in the process_clusters witness. -/
def rE : Report := { source := some "another_twitter_user", confidence := none }

end Checker

namespace Detecter

/-- Kind tag of a unified point, the "type" key set by _process_hotspot. -/
inductive PointKind
  | human
  | disaster
deriving DecidableEq, Repr

/-- Duck-typed payload of a source hotspot record as read via getattr in
update_or_create_composite_hotspot and _process_hotspot.  An attribute that
is missing and a column that is null behave identically through getattr
defaults plus truthiness tests, so both are modelled as none.  Emotion
entries are the pairs (emotion, score) of the JSON column; report_id is the
integer foreign key of core/models.py. -/
structure Payload where
  report_id : Option ℕ := none
  location : Option String := none
  emotions : List (String × ℚ) := []
  panic_level : Option String := none
  event_type : Option String := none
  severity : Option String := none
  risk_level : Option String := none
  confidence : Option ℚ := none
deriving DecidableEq, Repr

/-- Unified point dict built by DetecterA._process_hotspot. -/
structure Point where
  kind : PointKind
  payload : Payload
  latitude : ℚ
  longitude : ℚ
  confidence : ℚ
deriving DecidableEq, Repr

/-- Persisted CompositeHotspot row (core/models.py).  The JSON columns
aggregated_emotions and event_types and the float column
average_panic_level are nullable, hence Option. -/
structure CompositeHotspot where
  latitude : ℚ
  longitude : ℚ
  aggregated_emotions : Option (List (String × ℚ)) := none
  average_panic_level : Option ℚ := none
  event_types : Option (List String) := none
  severity_level : String := "low"
  risk_level : String := "unknown"
  contributing_reports_count : ℕ := 0
deriving DecidableEq, Repr

/-- Python getattr(hotspot, "confidence", 1.0) or 1.0: a missing attribute, a
null value and a zero value are all replaced by 1.0. -/
def processedConfidence (c : Option ℚ) : ℚ :=
  match c with
  | none => 1
  | some v => if v = 0 then 1 else v

/-- DetecterA._process_hotspot: drop the hotspot when geocoding found no
coordinates, otherwise build the unified point.  The geocoder call does
network IO, so its result is passed in. -/
def process_hotspot (kind : PointKind) (geocoded : Option (ℚ × ℚ)) (h : Payload) : Option Point :=
  match geocoded with
  | none => none
  | some c => some
      { kind := kind
        payload := h
        latitude := c.1
        longitude := c.2
        confidence := processedConfidence h.confidence }

/-- Python sum(p["confidence"] for p in cluster_points). -/
def total_confidence (pts : List Point) : ℚ := (pts.map Point.confidence).sum

/-- Zero-total-weight guard at the top of update_or_create_composite_hotspot:
substitute 1.0 when the summed confidence is zero. -/
def guarded_total_confidence (pts : List Point) : ℚ :=
  if total_confidence pts = 0 then 1 else total_confidence pts

/-- Confidence-weighted centroid latitude of a point group. -/
def avg_lat (pts : List Point) : ℚ :=
  (pts.map (fun p => p.latitude * p.confidence)).sum / guarded_total_confidence pts

/-- Confidence-weighted centroid longitude of a point group. -/
def avg_lon (pts : List Point) : ℚ :=
  (pts.map (fun p => p.longitude * p.confidence)).sum / guarded_total_confidence pts

/-- Python dict.get(k, 0.0) over an insertion-ordered association list. -/
def alGet (m : List (String × ℚ)) (k : String) : ℚ :=
  match m.find? (fun p => p.1 == k) with
  | some p => p.2
  | none => 0

/-- Python dict item assignment over an insertion-ordered association list:
update in place when the key exists, append otherwise. -/
def alSet (m : List (String × ℚ)) (k : String) (v : ℚ) : List (String × ℚ) :=
  if m.any (fun p => p.1 == k) then m.map (fun p => if p.1 == k then (p.1, v) else p)
  else m ++ [(k, v)]

/-- defaultdict(float) accumulation: emotion_agg[k] += v. -/
def alAdd (m : List (String × ℚ)) (k : String) (v : ℚ) : List (String × ℚ) :=
  alSet m k (alGet m k + v)

/-- collections.Counter increment, insertion ordered. -/
def tallyAdd (t : List (String × ℕ)) (k : String) : List (String × ℕ) :=
  if t.any (fun p => p.1 == k) then t.map (fun p => if p.1 == k then (p.1, p.2 + 1) else p)
  else t ++ [(k, 1)]

/-- severity_scale.get(severity, 1) where severity defaults to "low" when the
attribute is missing; an unknown or null severity also scores 1. -/
def severity_scale_val (s : Option String) : ℕ :=
  match s with
  | some str =>
    if str = "critical" then 4 else if str = "high" then 3
    else if str = "medium" then 2 else if str = "low" then 1 else 1
  | none => 1

/-- rev_severity.get(v, "low"): the reverse of severity_scale as built in
update_or_create_composite_hotspot, defaulting to "low" for any value that
is not an exact key (in particular any non-integer weighted value). -/
def rev_severity (v : ℚ) : String :=
  if v = 4 then "critical" else if v = 3 then "high"
  else if v = 2 then "medium" else if v = 1 then "low" else "low"

/-- panic_map.get(level, 0.0) with panic_map = high 1.0, medium 0.6, low 0.3. -/
def panic_map_val (s : String) : ℚ :=
  if s = "high" then 1 else if s = "medium" then 3/5 else if s = "low" then 3/10 else 0

/-- Python max over a non-empty list, given as head and tail. -/
def listMax (x : ℚ) (xs : List ℚ) : ℚ := xs.foldl max x

/-- Aggregation loop, emotions: human points add score*confidence per emotion
into a running defaultdict. -/
def emotion_agg (pts : List Point) : List (String × ℚ) :=
  pts.foldl (fun agg p =>
    match p.kind with
    | .human => p.payload.emotions.foldl (fun agg e => alAdd agg e.1 (e.2 * p.confidence)) agg
    | .disaster => agg) []

/-- Aggregation loop, panic: each human point appends
confidence * panic_map.get((panic_level or "").lower(), 0.0). -/
def panic_scores (pts : List Point) : List ℚ :=
  pts.foldl (fun vs p =>
    match p.kind with
    | .human =>
      vs ++ [p.confidence * panic_map_val (SIHP.pyLower (p.payload.panic_level.getD ""))]
    | .disaster => vs) []

/-- Aggregation loop, event types: disaster points with a truthy event_type
populate a set, modelled as a first-encounter-ordered duplicate-free list. -/
def event_types_set (pts : List Point) : List String :=
  pts.foldl (fun s p =>
    match p.kind with
    | .disaster =>
      match p.payload.event_type with
      | some et => if et = "" then s else if et ∈ s then s else s ++ [et]
      | none => s
    | .human => s) []

/-- Aggregation loop, severity: each disaster point appends
severity_scale.get(severity, 1) * confidence. -/
def severity_vals (pts : List Point) : List ℚ :=
  pts.foldl (fun vs p =>
    match p.kind with
    | .disaster => vs ++ [(severity_scale_val p.payload.severity : ℚ) * p.confidence]
    | .human => vs) []

/-- Aggregation loop, risk: disaster points with a truthy risk_level are
tallied in a Counter. -/
def risk_counts (pts : List Point) : List (String × ℕ) :=
  pts.foldl (fun t p =>
    match p.kind with
    | .disaster =>
      match p.payload.risk_level with
      | some rl => if rl = "" then t else tallyAdd t rl
      | none => t
    | .human => t) []

/-- Truthy report id of a point (Python: if report_id, with 0 falsy). -/
def truthyReportId (p : Point) : Option ℕ :=
  match p.payload.report_id with
  | some rid => if rid = 0 then none else some rid
  | none => none

/-- Step of the report-id set accumulation: add a truthy id unless present. -/
def reportIdStep (ids : List ℕ) (p : Point) : List ℕ :=
  match truthyReportId p with
  | some rid => if rid ∈ ids then ids else ids ++ [rid]
  | none => ids

/-- Aggregation loop, report ids: the set of truthy report ids, modelled as a
first-encounter-ordered duplicate-free list (only its size is ever used). -/
def report_ids (pts : List Point) : List ℕ :=
  pts.foldl reportIdStep []

/-- Counter.most_common(1)[0][0] if risk_counts else fallback: the earliest
key with the maximal count (heapq.nlargest is stable, so ties keep
first-encounter order); none when the Counter is empty. -/
def most_common_risk (t : List (String × ℕ)) : Option String :=
  match t with
  | [] => none
  | p :: rest => some ((Checker.argmaxAcc (fun q : String × ℕ => q.2) p rest).1)

/-- Merge branch of DetecterA.update_or_create_composite_hotspot (an existing
persisted hotspot lies within 5 km of the centroid).  When
existing.contributing_reports_count + len(report_ids) is zero the Python
code raises ZeroDivisionError at the running-average divisions, modelled as
none. -/
def mergeHotspot (existing : CompositeHotspot) (pts : List Point) : Option CompositeHotspot :=
  let batch_ids := (report_ids pts).length
  let total_reports := existing.contributing_reports_count + batch_ids
  if total_reports = 0 then none
  else
    let aggregated_emotions := (emotion_agg pts).foldl
      (fun acc e =>
        alSet acc e.1 ((alGet acc e.1 * (existing.contributing_reports_count : ℚ) + e.2) /
          (total_reports : ℚ)))
      (existing.aggregated_emotions.getD [])
    let avg_panic := ((existing.average_panic_level.getD 0) *
      (existing.contributing_reports_count : ℚ) + (panic_scores pts).sum) / (total_reports : ℚ)
    let event_types := ((existing.event_types.getD []) ++ event_types_set pts).dedup
    let severity_level_num :=
      listMax ((severity_scale_val (some existing.severity_level) : ℚ)) (severity_vals pts)
    let risk_level := (most_common_risk (risk_counts pts)).getD existing.risk_level
    let new_lat := (existing.latitude * (existing.contributing_reports_count : ℚ) +
      avg_lat pts * (batch_ids : ℚ)) / (total_reports : ℚ)
    let new_lon := (existing.longitude * (existing.contributing_reports_count : ℚ) +
      avg_lon pts * (batch_ids : ℚ)) / (total_reports : ℚ)
    some
      { latitude := new_lat
        longitude := new_lon
        aggregated_emotions := some aggregated_emotions
        average_panic_level := some avg_panic
        event_types := some event_types
        severity_level := rev_severity severity_level_num
        risk_level := risk_level
        contributing_reports_count := total_reports }

/-- Create branch of DetecterA.update_or_create_composite_hotspot (no
persisted hotspot within 5 km of the centroid). -/
def createHotspot (pts : List Point) : CompositeHotspot :=
  { latitude := avg_lat pts
    longitude := avg_lon pts
    aggregated_emotions := some ((emotion_agg pts).map (fun e => (e.1, e.2 / (pts.length : ℚ))))
    average_panic_level := some
      (if panic_scores pts = [] then 0 else (panic_scores pts).sum / (pts.length : ℚ))
    event_types := some (event_types_set pts)
    severity_level := rev_severity
      (match severity_vals pts with
       | [] => 1
       | v :: vs => listMax v vs)
    risk_level := (most_common_risk (risk_counts pts)).getD "unknown"
    contributing_reports_count := (report_ids pts).length }

/-- DetecterA.update_or_create_composite_hotspot with the database lookup
abstracted: existing is the first persisted hotspot whose haversine distance
from the confidence-weighted centroid is at most 5 km (after the 0.05
degree bounding-box prefilter), none when there is no such hotspot. -/
def update_or_create_composite_hotspot (existing : Option CompositeHotspot)
    (pts : List Point) : Option CompositeHotspot :=
  match existing with
  | some ex => mergeHotspot ex pts
  | none => some (createHotspot pts)

/-- One step of spatial clustering: merge every group that contains a point
within eps of the new point into one group together with the new point;
other groups are untouched. -/
def clusterStep {α : Type} (near : α → α → Bool) (groups : List (List α)) (x : α) :
    List (List α) :=
  ((groups.filter (fun g => g.any (fun y => near x y))).flatten ++ [x]) ::
    groups.filter (fun g => !(g.any (fun y => near x y)))

/-- DetecterA.cluster_points: sklearn DBSCAN with min_samples=1 makes every
point a core point, so the labels partition the points into the connected
components of the eps-neighbourhood graph; this fold computes exactly those
components.  The neighbourhood test (haversine distance of the radian
coordinates at most 5/6371, i.e. great-circle distance at most 5 km on an
Earth of radius 6371 km) is abstracted as the parameter near, since the
trigonometric metric itself lives in sklearn. -/
def cluster_points {α : Type} (near : α → α → Bool) (pts : List α) : List (List α) :=
  pts.foldl (clusterStep near) []

/-- Existing hotspot with one contributing report for the merge witnesses. -/
def exW4 : CompositeHotspot :=
  { latitude := 0, longitude := 0, contributing_reports_count := 1 }

/-- Expected result of merging the empty batch into exW4. -/
def h2W4 : CompositeHotspot :=
  { latitude := 0
    longitude := 0
    aggregated_emotions := some []
    average_panic_level := some 0
    event_types := some []
    severity_level := "low"
    risk_level := "unknown"
    contributing_reports_count := 1 }

/-- Human point of report 1 for the creation-count witness. -/
def pW6h : Point :=
  { kind := .human, payload := { report_id := some 1 }, latitude := 0, longitude := 0,
    confidence := 1 }

/-- Disaster point of the same report 1 for the creation-count witness. -/
def pW6d : Point :=
  { kind := .disaster, payload := { report_id := some 1 }, latitude := 0, longitude := 0,
    confidence := 1 }

/-- Existing hotspot of severity high used in the severity counterexample. -/
def exC7 : CompositeHotspot :=
  { latitude := 0, longitude := 0, severity_level := "high", contributing_reports_count := 1 }

/-- Critical disaster point with confidence 0.9: its weighted severity value
4 * 0.9 = 3.6 is not a key of the reverse severity map. -/
def ptC7 : Point :=
  { kind := .disaster, payload := { report_id := some 7, severity := some "critical" },
    latitude := 0, longitude := 0, confidence := 9/10 }

/-- Existing hotspot of severity medium for the severity witness. -/
def exW7 : CompositeHotspot :=
  { latitude := 0, longitude := 0, severity_level := "medium", contributing_reports_count := 1 }

/-- Critical disaster point with confidence 1 for the severity witness. -/
def ptW7 : Point :=
  { kind := .disaster, payload := { report_id := some 3, severity := some "critical" },
    latitude := 0, longitude := 0, confidence := 1 }

/-- Expected result of merging [ptW7] into exW7. -/
def h2W7 : CompositeHotspot :=
  { latitude := 0
    longitude := 0
    aggregated_emotions := some []
    average_panic_level := some 0
    event_types := some []
    severity_level := "critical"
    risk_level := "unknown"
    contributing_reports_count := 2 }

/-- Existing hotspot with risk_level high used in the risk counterexample. -/
def exC8 : CompositeHotspot :=
  { latitude := 0, longitude := 0, risk_level := "high", contributing_reports_count := 1 }

/-- Disaster point tallying risk low (first encountered). -/
def ptC8a : Point :=
  { kind := .disaster, payload := { report_id := some 1, risk_level := some "low" },
    latitude := 0, longitude := 0, confidence := 1 }

/-- Disaster point tallying risk high (encountered second). -/
def ptC8b : Point :=
  { kind := .disaster, payload := { report_id := some 2, risk_level := some "high" },
    latitude := 0, longitude := 0, confidence := 1 }

/-- Expected result of merging [ptC8a] into exC8 for the risk witness. -/
def h2W8 : CompositeHotspot :=
  { latitude := 0
    longitude := 0
    aggregated_emotions := some []
    average_panic_level := some 0
    event_types := some []
    severity_level := "low"
    risk_level := "low"
    contributing_reports_count := 2 }

/-- Payload carrying an explicit zero confidence for the confidence witness. -/
def payW10 : Payload := { confidence := some 0 }

/-- Point produced by _process_hotspot from payW10: confidence lifted to 1. -/
def ptW10 : Point :=
  { kind := .human, payload := payW10, latitude := 0, longitude := 0, confidence := 1 }

/-- Concrete symmetric neighbourhood test for the spatial clustering witness:
two points are near when their kinds agree. -/
def nearW (p q : Point) : Bool := decide (p.kind = q.kind)

/-- First human point of the spatial witness batch. -/
def pW5a : Point :=
  { kind := .human, payload := {}, latitude := 0, longitude := 0, confidence := 1 }

/-- Second human point of the spatial witness batch, near pW5a. -/
def pW5b : Point :=
  { kind := .human, payload := {}, latitude := 1, longitude := 0, confidence := 1 }

/-- Disaster point of the spatial witness batch, near no other point. -/
def pW5z : Point :=
  { kind := .disaster, payload := {}, latitude := 50, longitude := 0, confidence := 1 }

end Detecter

namespace Geo

/-- Outcome of the transport layer of GeoCoder.geocode: ok carries the parsed
JSON list restricted to the (lat, lon) of each entry; err models any
exception raised by requests.get, raise_for_status or the body parsing,
which the except block turns into None. -/
inductive Transport
  | ok (data : List (ℚ × ℚ))
  | err
deriving DecidableEq, Repr

/-- Observable effects of one call to GeoCoder.geocode: the returned value,
the seconds spent sleeping for the rate limit, whether an outbound request
was made, and the instance state last_call_time afterwards. -/
structure GeocodeOutcome where
  result : Option (ℚ × ℚ)
  slept : ℚ
  requested : Bool
  last_call_time : ℚ
deriving DecidableEq, Repr

/-- GeoCoder.geocode with the clock and the transport passed explicitly:
last is the stored last_call_time, now the time at entry.  The lru_cache
only short-circuits repeated arguments and is not modelled. -/
def geocode (last : ℚ) (now : ℚ) (transport : Transport) (location : String) : GeocodeOutcome :=
  if location = "" ∨ SIHP.pyStrip location = "" then
    { result := none, slept := 0, requested := false, last_call_time := last }
  else
    let slept := if now - last < 1 then 1 - (now - last) else 0
    let result :=
      match transport with
      | .ok [] => none
      | .ok (c :: _) => some c
      | .err => none
    { result := result, slept := slept, requested := true, last_call_time := now }

end Geo

namespace Checker

theorem append_singleton_perm {α : Type} (a b : List α) (x : α) :
    ((a ++ [x]) ++ b).Perm ((a ++ b) ++ [x]) := by
  rw [List.append_assoc, List.append_assoc]
  exact List.Perm.append_left a List.perm_append_comm

theorem insertReport_nil_eq {α : Type} (m : α → α → Bool) (x : α) :
    insertReport m [] x = [[x]] := rfl

theorem insertReport_cons_nil_eq {α : Type} (m : α → α → Bool) (cs : List (List α)) (x : α) :
    insertReport m ([] :: cs) x = [] :: insertReport m cs x := rfl

theorem insertReport_cons_pos {α : Type} (m : α → α → Bool) (anchor : α) (rest : List α)
    (cs : List (List α)) (x : α) (h : m x anchor = true) :
    insertReport m ((anchor :: rest) :: cs) x = (anchor :: (rest ++ [x])) :: cs := by
  simp [insertReport, h]

theorem insertReport_cons_neg {α : Type} (m : α → α → Bool) (anchor : α) (rest : List α)
    (cs : List (List α)) (x : α) (h : ¬ m x anchor = true) :
    insertReport m ((anchor :: rest) :: cs) x = (anchor :: rest) :: insertReport m cs x := by
  simp [insertReport, h]

theorem insertReport_flatten_perm {α : Type} (m : α → α → Bool) (cs : List (List α)) (x : α) :
    (insertReport m cs x).flatten.Perm (cs.flatten ++ [x]) := by
  induction cs with
  | nil => simp [insertReport]
  | cons c cs ih =>
    match c with
    | [] =>
      rw [insertReport_cons_nil_eq]
      simpa using ih
    | anchor :: rest =>
      by_cases h : m x anchor
      · rw [insertReport_cons_pos m anchor rest cs x h,
          List.flatten_cons, List.flatten_cons]
        exact append_singleton_perm (anchor :: rest) cs.flatten x
      · rw [insertReport_cons_neg m anchor rest cs x h,
          List.flatten_cons, List.flatten_cons, List.append_assoc]
        exact List.Perm.append_left _ ih

theorem insertReport_mem {α : Type} (m : α → α → Bool) (cs : List (List α)) (x : α) :
    ∀ c ∈ insertReport m cs x, c ∈ cs ∨ (∃ d ∈ cs, c = d ++ [x]) ∨ c = [x] := by
  induction cs with
  | nil =>
    intro c hc
    rw [insertReport_nil_eq] at hc
    simp at hc
    exact Or.inr (Or.inr hc)
  | cons c0 cs ih =>
    intro c hc
    match c0 with
    | [] =>
      rw [insertReport_cons_nil_eq, List.mem_cons] at hc
      rcases hc with h | h
      · exact Or.inl (by simp [h])
      · rcases ih c h with h1 | ⟨d, hd, he⟩ | h3
        · exact Or.inl (List.mem_cons_of_mem _ h1)
        · exact Or.inr (Or.inl ⟨d, List.mem_cons_of_mem _ hd, he⟩)
        · exact Or.inr (Or.inr h3)
    | anchor :: rest =>
      by_cases h : m x anchor
      · rw [insertReport_cons_pos m anchor rest cs x h, List.mem_cons] at hc
        rcases hc with h1 | h1
        · exact Or.inr (Or.inl ⟨anchor :: rest, List.mem_cons_self _ _, by simp [h1]⟩)
        · exact Or.inl (List.mem_cons_of_mem _ h1)
      · rw [insertReport_cons_neg m anchor rest cs x h, List.mem_cons] at hc
        rcases hc with h1 | h1
        · exact Or.inl (by simp [h1])
        · rcases ih c h1 with h2 | ⟨d, hd, he⟩ | h3
          · exact Or.inl (List.mem_cons_of_mem _ h2)
          · exact Or.inr (Or.inl ⟨d, List.mem_cons_of_mem _ hd, he⟩)
          · exact Or.inr (Or.inr h3)

theorem foldl_insertReport_flatten_perm {α : Type} (m : α → α → Bool) :
    ∀ (l : List α) (cs : List (List α)),
      (l.foldl (insertReport m) cs).flatten.Perm (cs.flatten ++ l) := by
  intro l
  induction l with
  | nil => intro cs; simp
  | cons x xs ih =>
    intro cs
    have h1 : ((x :: xs).foldl (insertReport m) cs).flatten
        = (xs.foldl (insertReport m) (insertReport m cs x)).flatten := by simp
    have h2 := ih (insertReport m cs x)
    have h3 : ((insertReport m cs x).flatten ++ xs).Perm ((cs.flatten ++ [x]) ++ xs) :=
      List.Perm.append_right _ (insertReport_flatten_perm m cs x)
    have h4 : (cs.flatten ++ [x]) ++ xs = cs.flatten ++ (x :: xs) := by simp
    rw [h1]
    exact (h2.trans h3).trans (by rw [h4])

theorem foldl_insertReport_sublist {α : Type} (m : α → α → Bool) :
    ∀ (l : List α) (cs : List (List α)) (l₀ : List α),
      (∀ c ∈ cs, c.Sublist l₀) →
      ∀ c ∈ l.foldl (insertReport m) cs, c.Sublist (l₀ ++ l) := by
  intro l
  induction l with
  | nil => intro cs l₀ h c hc; simpa using h c hc
  | cons x xs ih =>
    intro cs l₀ h c hc
    simp only [List.foldl_cons] at hc
    have step : ∀ d ∈ insertReport m cs x, d.Sublist (l₀ ++ [x]) := by
      intro d hd
      rcases insertReport_mem m cs x d hd with h1 | ⟨e, he, rfl⟩ | rfl
      · exact (h d h1).trans (List.sublist_append_left _ _)
      · exact (h e he).append (List.Sublist.refl _)
      · exact ((List.nil_sublist l₀).append (List.Sublist.refl [x]))
    have := ih (insertReport m cs x) (l₀ ++ [x]) step c hc
    simpa using this

theorem foldl_insertReport_ne_nil {α : Type} (m : α → α → Bool) :
    ∀ (l : List α) (cs : List (List α)),
      (∀ c ∈ cs, c ≠ []) →
      ∀ c ∈ l.foldl (insertReport m) cs, c ≠ [] := by
  intro l
  induction l with
  | nil => intro cs h c hc; exact h c (by simpa using hc)
  | cons x xs ih =>
    intro cs h c hc
    simp only [List.foldl_cons] at hc
    refine ih (insertReport m cs x) ?_ c hc
    intro d hd
    rcases insertReport_mem m cs x d hd with h1 | ⟨e, _, rfl⟩ | rfl
    · exact h d h1
    · simp
    · simp

theorem argmaxAcc_key_le {α β : Type} [LinearOrder β] (key : α → β) :
    ∀ (xs : List α) (best : α), key best ≤ key (argmaxAcc key best xs) := by
  intro xs
  induction xs with
  | nil => intro best; exact le_refl _
  | cons x xs ih =>
    intro best
    by_cases h : key best < key x
    · simpa [argmaxAcc, h] using le_of_lt (lt_of_lt_of_le h (ih x))
    · simpa [argmaxAcc, h] using ih best

theorem argmaxAcc_first_max {α β : Type} [LinearOrder β] (key : α → β) :
    ∀ (xs : List α) (best : α),
      ∃ l₁ l₂, best :: xs = l₁ ++ (argmaxAcc key best xs) :: l₂ ∧
        (∀ a ∈ l₁, key a < key (argmaxAcc key best xs)) ∧
        (∀ a ∈ l₂, key a ≤ key (argmaxAcc key best xs)) := by
  intro xs
  induction xs with
  | nil =>
    intro best
    exact ⟨[], [], rfl, by simp, by simp⟩
  | cons x xs ih =>
    intro best
    by_cases hbx : key best < key x
    · obtain ⟨l₁, l₂, heq, h1, h2⟩ := ih x
      have hm : argmaxAcc key best (x :: xs) = argmaxAcc key x xs := by
        simp [argmaxAcc, hbx]
      refine ⟨best :: l₁, l₂, ?_, ?_, ?_⟩
      · rw [hm]; simpa using heq
      · intro a ha
        rw [hm]
        rcases List.mem_cons.mp ha with rfl | ha
        · exact lt_of_lt_of_le hbx (argmaxAcc_key_le key xs x)
        · exact h1 a ha
      · intro a ha; rw [hm]; exact h2 a ha
    · obtain ⟨l₁, l₂, heq, h1, h2⟩ := ih best
      have hm : argmaxAcc key best (x :: xs) = argmaxAcc key best xs := by
        simp [argmaxAcc, hbx]
      match l₁, heq with
      | [], heq =>
        have hb : best = argmaxAcc key best xs := by
          simpa using congrArg (fun l => l.head?) heq
        have hxs : xs = l₂ := by
          simpa using congrArg (fun l => l.tail) heq
        refine ⟨[], x :: l₂, ?_, by simp, ?_⟩
        · rw [hm, ← hb, ← hxs]; rfl
        · intro a ha
          rw [hm]
          rcases List.mem_cons.mp ha with rfl | ha
          · exact le_trans (le_of_not_lt hbx) (by rw [← hb])
          · exact h2 a ha
      | b :: l₁, heq =>
        have hb : best = b := by
          simpa using congrArg (fun l => l.head?) heq
        have hxs : xs = l₁ ++ argmaxAcc key best xs :: l₂ := by
          simpa using congrArg (fun l => l.tail) heq
        have hbestlt : key best < key (argmaxAcc key best xs) := by
          have := h1 b (by simp)
          rwa [← hb] at this
        refine ⟨best :: x :: l₁, l₂, ?_, ?_, ?_⟩
        · rw [hm]
          conv_lhs => rw [hxs]
          rfl
        · intro a ha
          rw [hm]
          rcases List.mem_cons.mp ha with rfl | ha
          · exact hbestlt
          · rcases List.mem_cons.mp ha with rfl | ha
            · exact lt_of_le_of_lt (le_of_not_lt hbx) hbestlt
            · exact h1 a (by simp [ha])
        · intro a ha; rw [hm]; exact h2 a ha

theorem accept_cluster_iff (cfg : Config) (c : List Report) :
    accept_cluster cfg c = true ↔ ¬(trusted_count cfg c = 0 ∧ c.length < 2) := by
  simp only [accept_cluster]
  split_ifs with h1 h2 h3 <;> simp <;> omega

theorem verify_report_eq (r : Report) :
    verify_report r =
      { r with
        reporter := if SIHP.truthyStr r.reporter then r.reporter else some "unknown",
        veracity_flag := some "verified" } := by
  unfold verify_report
  by_cases h : SIHP.truthyStr r.reporter <;> simp [h]

/-- C1: for every input batch of reports, the clusters returned by
CheckerA._create_clusters are pairwise disjoint, every input report appears
in exactly one cluster (their union, as a multiset, equals the input batch,
stated here as a permutation of the flattened output), and within each
cluster the reports keep their original arrival order (each cluster is a
sublist of the input).  Clusters are never empty, and on duplicate-free
batches the clusters are pairwise disjoint. -/
theorem create_clusters_partition (cfg : Config) (reports : List Report) :
    (create_clusters cfg reports).flatten.Perm reports ∧
    (∀ c ∈ create_clusters cfg reports, c.Sublist reports) ∧
    (∀ c ∈ create_clusters cfg reports, c ≠ []) ∧
    (reports.Nodup → List.Pairwise List.Disjoint (create_clusters cfg reports)) := by
  have hperm : (create_clusters cfg reports).flatten.Perm reports := by
    have := foldl_insertReport_flatten_perm (cluster_match cfg) reports []
    simpa [create_clusters] using this
  refine ⟨hperm, ?_, ?_, ?_⟩
  · intro c hc
    have := foldl_insertReport_sublist (cluster_match cfg) reports [] [] (by simp) c hc
    simpa using this
  · intro c hc
    exact foldl_insertReport_ne_nil (cluster_match cfg) reports [] (by simp) c hc
  · intro hnd
    have hfn : (create_clusters cfg reports).flatten.Nodup := hperm.symm.nodup hnd
    exact (List.nodup_flatten.mp hfn).2

/-- Witness for C1: the disjointness conclusion applied to a concrete
duplicate-free two-report batch. -/
theorem create_clusters_partition_witness :
    List.Pairwise List.Disjoint (create_clusters cfgW [rD, rE]) :=
  (create_clusters_partition cfgW [rD, rE]).2.2.2 (by decide)

/-- C2: a non-empty cluster is rejected (emits nothing) iff it has zero
trusted sources and fewer than two reports; otherwise exactly one report is
emitted, namely the maximum-confidence report (ties broken by first
occurrence, witnessed by the split c = l₁ ++ b :: l₂ with strictly smaller
confidences before b and no larger confidence after it), with its reporter
defaulted to "unknown" when empty and veracity_flag set to "verified". -/
theorem process_cluster_spec (cfg : Config) (c : List Report) (hne : c ≠ []) :
    (process_cluster cfg c = none ↔ (trusted_count cfg c = 0 ∧ c.length < 2)) ∧
    (¬(trusted_count cfg c = 0 ∧ c.length < 2) →
      ∃ b l₁ l₂, c = l₁ ++ b :: l₂ ∧
        (∀ a ∈ l₁, confVal a < confVal b) ∧
        (∀ a ∈ l₂, confVal a ≤ confVal b) ∧
        process_cluster cfg c = some
          { b with
            reporter := if SIHP.truthyStr b.reporter then b.reporter else some "unknown",
            veracity_flag := some "verified" }) := by
  match c, hne with
  | h :: t, _ =>
    have hiff := accept_cluster_iff cfg (h :: t)
    constructor
    · by_cases hacc : accept_cluster cfg (h :: t) = true
      · have hB3 := hiff.mp hacc
        constructor
        · intro hnone
          simp [process_cluster, hacc] at hnone
        · intro hB
          exact absurd hB hB3
      · have hB3 : trusted_count cfg (h :: t) = 0 ∧ (h :: t).length < 2 := by
          by_contra hB
          exact hacc (hiff.mpr hB)
        constructor
        · intro _; exact hB3
        · intro _
          simp [process_cluster, hacc]
    · intro hB
      have hacc : accept_cluster cfg (h :: t) = true := hiff.mpr hB
      obtain ⟨l₁, l₂, heq, h1, h2⟩ := argmaxAcc_first_max confVal t h
      refine ⟨argmaxAcc confVal h t, l₁, l₂, heq, h1, h2, ?_⟩
      rw [← verify_report_eq]
      simp [process_cluster, hacc, best_report]

/-- Witness for C2: the specification applied to a concrete two-report
untrusted cluster, which is accepted because it has two reports. -/
theorem process_cluster_spec_witness :
    (process_cluster cfgW [rD, rE] = none ↔
      (trusted_count cfgW [rD, rE] = 0 ∧ ([rD, rE] : List Report).length < 2)) ∧
    (¬(trusted_count cfgW [rD, rE] = 0 ∧ ([rD, rE] : List Report).length < 2) →
      ∃ b l₁ l₂, ([rD, rE] : List Report) = l₁ ++ b :: l₂ ∧
        (∀ a ∈ l₁, confVal a < confVal b) ∧
        (∀ a ∈ l₂, confVal a ≤ confVal b) ∧
        process_cluster cfgW [rD, rE] = some
          { b with
            reporter := if SIHP.truthyStr b.reporter then b.reporter else some "unknown",
            veracity_flag := some "verified" }) :=
  process_cluster_spec cfgW [rD, rE] (by decide)

/-- C3 counterexample: in the batch [rA, rB, rC], the reports rB and rC both
carry event_type, location and timestamp, their similarities meet the
thresholds and their timestamps are within the window, yet no output cluster
contains both: rB is absorbed by the cluster anchored at rA while rC starts
its own cluster, so the claim fails for batches with interfering reports. -/
theorem create_clusters_transitivity_counterexample :
    fieldPresent rB.event_type = true ∧ fieldPresent rC.event_type = true ∧
    fieldPresent rB.location = true ∧ fieldPresent rC.location = true ∧
    fieldPresent rB.timestamp = true ∧ fieldPresent rC.timestamp = true ∧
    cfgW.event_type_similarity_threshold ≤ similarity cfgW rC.event_type rB.event_type ∧
    cfgW.location_similarity_threshold ≤ similarity cfgW rC.location rB.location ∧
    time_within_window cfgW rC.timestamp rB.timestamp = true ∧
    (∀ c ∈ create_clusters cfgW [rA, rB, rC], ¬(rB ∈ c ∧ rC ∈ c)) := by
  decide

/-- C3 amended: for a batch consisting of exactly the two reports, if both
carry event_type, location and timestamp, the similarities of those fields
meet the thresholds and the timestamps are within the window, then
_create_clusters returns the single cluster holding both reports.  (The
original claim, quantifying over arbitrary ambient batches, is refuted by
create_clusters_transitivity_counterexample: matching is only ever against
cluster anchors, so interfering earlier reports can separate the pair.) -/
theorem create_clusters_pair_same_cluster (cfg : Config) (r1 r2 : Report)
    (he1 : fieldPresent r1.event_type = true) (he2 : fieldPresent r2.event_type = true)
    (hl1 : fieldPresent r1.location = true) (hl2 : fieldPresent r2.location = true)
    (ht1 : fieldPresent r1.timestamp = true) (ht2 : fieldPresent r2.timestamp = true)
    (hse : cfg.event_type_similarity_threshold ≤ similarity cfg r2.event_type r1.event_type)
    (hsl : cfg.location_similarity_threshold ≤ similarity cfg r2.location r1.location)
    (htw : time_within_window cfg r2.timestamp r1.timestamp = true) :
    create_clusters cfg [r1, r2] = [[r1, r2]] := by
  have hm : cluster_match cfg r2 r1 = true := by
    unfold cluster_match
    simp only [he1, he2, hl1, hl2, ht1, ht2, htw, decide_eq_true hse, decide_eq_true hsl,
      Bool.and_self, Bool.true_and, Bool.and_true]
    rcases Bool.dichotomy (fieldPresent r2.description && fieldPresent r1.description) with h4 | h4 <;>
      rcases Bool.dichotomy
        (decide (cfg.description_similarity_threshold ≤
          similarity cfg r2.description r1.description)) with h5 | h5 <;>
      simp [h4, h5]
  show ([r1, r2] : List Report).foldl (insertReport (cluster_match cfg)) [] = [[r1, r2]]
  simp [insertReport, hm]

/-- Witness for the amended C3: the two-report batch [rB, rC] clusters into a
single cluster. -/
theorem create_clusters_pair_same_cluster_witness :
    create_clusters cfgW [rB, rC] = [[rB, rC]] :=
  create_clusters_pair_same_cluster cfgW rB rC (by decide) (by decide) (by decide) (by decide)
    (by decide) (by decide) (by decide) (by decide) (by decide)

end Checker

namespace Detecter

theorem reportIdStep_nodup (ids : List ℕ) (p : Point) (h : ids.Nodup) :
    (reportIdStep ids p).Nodup := by
  unfold reportIdStep
  match truthyReportId p with
  | some rid =>
    by_cases hmem : rid ∈ ids
    · simpa [hmem] using h
    · simp only [hmem, if_false]
      simpa [List.nodup_append] using ⟨h, hmem⟩
  | none => exact h

theorem mem_reportIdStep (ids : List ℕ) (p : Point) (a : ℕ) :
    a ∈ reportIdStep ids p ↔ a ∈ ids ∨ truthyReportId p = some a := by
  unfold reportIdStep
  match hid : truthyReportId p with
  | some rid =>
    by_cases hmem : rid ∈ ids
    · simp only [hmem, if_true]
      constructor
      · exact fun h => Or.inl h
      · rintro (h | h)
        · exact h
        · obtain rfl : rid = a := by simpa using h
          exact hmem
    · simp only [hmem, if_false, List.mem_append, List.mem_singleton]
      constructor
      · rintro (h | rfl)
        · exact Or.inl h
        · exact Or.inr rfl
      · rintro (h | h)
        · exact Or.inl h
        · exact Or.inr (by simpa using h.symm)
  | none => simp

theorem foldl_reportIdStep_nodup :
    ∀ (l : List Point) (ids : List ℕ), ids.Nodup → (l.foldl reportIdStep ids).Nodup := by
  intro l
  induction l with
  | nil => intro ids h; simpa using h
  | cons p ps ih =>
    intro ids h
    simpa using ih (reportIdStep ids p) (reportIdStep_nodup ids p h)

theorem mem_foldl_reportIdStep :
    ∀ (l : List Point) (ids : List ℕ) (a : ℕ),
      a ∈ l.foldl reportIdStep ids ↔ a ∈ ids ∨ ∃ p ∈ l, truthyReportId p = some a := by
  intro l
  induction l with
  | nil => intro ids a; simp
  | cons p ps ih =>
    intro ids a
    rw [List.foldl_cons, ih (reportIdStep ids p) a, mem_reportIdStep]
    constructor
    · rintro ((h | h) | ⟨q, hq, hqa⟩)
      · exact Or.inl h
      · exact Or.inr ⟨p, by simp, h⟩
      · exact Or.inr ⟨q, by simp [hq], hqa⟩
    · rintro (h | ⟨q, hq, hqa⟩)
      · exact Or.inl (Or.inl h)
      · rcases List.mem_cons.mp hq with rfl | hq
        · exact Or.inl (Or.inr hqa)
        · exact Or.inr ⟨q, hq, hqa⟩

theorem report_ids_nodup (pts : List Point) : (report_ids pts).Nodup :=
  foldl_reportIdStep_nodup pts [] List.nodup_nil

theorem report_ids_length_eq_card (pts : List Point) :
    (report_ids pts).length = (pts.filterMap truthyReportId).toFinset.card := by
  have hset : (report_ids pts).toFinset = (pts.filterMap truthyReportId).toFinset := by
    ext a
    rw [List.mem_toFinset, List.mem_toFinset, List.mem_filterMap]
    unfold report_ids
    rw [mem_foldl_reportIdStep]
    simp
  rw [← hset, List.toFinset_card_of_nodup (report_ids_nodup pts)]

/-- C4: whenever update_or_create_composite_hotspot merges a point group into
an existing CompositeHotspot, the stored contributing_reports_count is at
least its previous value, and the new total is the existing count plus the
number of distinct truthy report ids of the batch. -/
theorem merge_count_monotone (ex : CompositeHotspot) (pts : List Point) (h2 : CompositeHotspot)
    (h : mergeHotspot ex pts = some h2) :
    ex.contributing_reports_count ≤ h2.contributing_reports_count ∧
    h2.contributing_reports_count =
      ex.contributing_reports_count + (report_ids pts).length := by
  simp only [mergeHotspot] at h
  split at h
  · exact absurd h (by simp)
  · obtain rfl := Option.some.inj h
    exact ⟨Nat.le_add_right _ _, rfl⟩

/-- Witness for C4: merging the empty batch into a one-report hotspot keeps
the count at 1. -/
theorem merge_count_monotone_witness :
    exW4.contributing_reports_count ≤ h2W4.contributing_reports_count ∧
    h2W4.contributing_reports_count =
      exW4.contributing_reports_count + (report_ids []).length :=
  merge_count_monotone exW4 [] h2W4 (by
    have e0 : severity_scale_val (some "low") = 1 := by decide
    norm_num [mergeHotspot, report_ids, emotion_agg, panic_scores, event_types_set,
      severity_vals, risk_counts, most_common_risk, listMax, rev_severity,
      avg_lat, avg_lon, total_confidence, guarded_total_confidence, exW4, h2W4, e0])

/-- C6: a freshly created CompositeHotspot (no persisted hotspot within 5 km
of the centroid, i.e. the abstracted lookup returned none) stores
contributing_reports_count equal to the number of distinct truthy report
ids among the points of the group; a report contributing both a human and a
disaster point is counted once, since the count is the cardinality of the
set of ids. -/
theorem create_count_distinct (pts : List Point) (h2 : CompositeHotspot)
    (h : update_or_create_composite_hotspot none pts = some h2) :
    h2.contributing_reports_count = (pts.filterMap truthyReportId).toFinset.card := by
  obtain rfl := Option.some.inj h
  exact report_ids_length_eq_card pts

/-- Witness for C6: one report contributing a human and a disaster point is
counted once. -/
theorem create_count_distinct_witness :
    (createHotspot [pW6h, pW6d]).contributing_reports_count =
      (([pW6h, pW6d] : List Point).filterMap truthyReportId).toFinset.card :=
  create_count_distinct [pW6h, pW6d] (createHotspot [pW6h, pW6d]) rfl

/-- C10: every unified point produced by _process_hotspot carries a nonzero
confidence; an absent, null or zero source confidence is replaced by 1.0;
and for a non-empty group of such full-weight points the zero-total-weight
guard of update_or_create_composite_hotspot never fires (the guarded total
is the plain total). -/
theorem process_hotspot_confidence_spec :
    (∀ (kind : PointKind) (g : Option (ℚ × ℚ)) (pay : Payload) (p : Point),
      process_hotspot kind g pay = some p →
        p.confidence ≠ 0 ∧
        ((pay.confidence = none ∨ pay.confidence = some 0) → p.confidence = 1)) ∧
    (∀ pts : List Point, pts ≠ [] → (∀ p ∈ pts, p.confidence = 1) →
      total_confidence pts ≠ 0 ∧ guarded_total_confidence pts = total_confidence pts) := by
  constructor
  · intro kind g pay p hp
    rcases g with _ | c
    · exact absurd hp (by simp [process_hotspot])
    · have h1 : ({ kind := kind
                   payload := pay
                   latitude := c.1
                   longitude := c.2
                   confidence := processedConfidence pay.confidence } : Point) = p := by
        simpa [process_hotspot] using hp
      rw [← h1]
      constructor
      · show processedConfidence pay.confidence ≠ 0
        unfold processedConfidence
        rcases pay.confidence with _ | v
        · norm_num
        · by_cases hv : v = 0 <;> simp [hv]
      · rintro (hc | hc) <;> simp [processedConfidence, hc]
  · intro pts hne hall
    have hmap : pts.map Point.confidence = List.replicate pts.length 1 := by
      rw [List.eq_replicate_iff]
      constructor
      · simp
      · intro b hb
        obtain ⟨p, hp, rfl⟩ := List.mem_map.mp hb
        exact hall p hp
    have hsum : total_confidence pts = (pts.length : ℚ) := by
      rw [total_confidence, hmap, List.sum_replicate, nsmul_eq_mul, mul_one]
    have hlen : pts.length ≠ 0 := fun h0 => hne (List.length_eq_zero.mp h0)
    have hz : total_confidence pts ≠ 0 := by
      rw [hsum]
      exact_mod_cast hlen
    exact ⟨hz, by rw [guarded_total_confidence, if_neg hz]⟩

theorem mergeHotspot_some_fields (ex : CompositeHotspot) (pts : List Point)
    (h2 : CompositeHotspot) (h : mergeHotspot ex pts = some h2) :
    h2.severity_level =
      rev_severity (listMax ((severity_scale_val (some ex.severity_level) : ℚ))
        (severity_vals pts)) ∧
    h2.risk_level = (most_common_risk (risk_counts pts)).getD ex.risk_level := by
  simp only [mergeHotspot] at h
  split at h
  · exact absurd h (by simp)
  · obtain rfl := Option.some.inj h
    exact ⟨rfl, rfl⟩

theorem le_listMax (x : ℚ) (xs : List ℚ) : x ≤ listMax x xs := by
  unfold listMax
  induction xs generalizing x with
  | nil => exact le_refl x
  | cons y ys ih =>
    rw [List.foldl_cons]
    exact le_trans (le_max_left x y) (ih (max x y))

/-- C7 counterexample: merging a critical disaster point of confidence 0.9
into a severity-high hotspot yields severity_level "low": the weighted value
4 * 0.9 = 3.6 wins the maximum but is not a key of the reverse map, so the
default "low" is stored, ranking strictly below the existing "high". -/
theorem merge_severity_rank_counterexample :
    (mergeHotspot exC7 [ptC7]).map CompositeHotspot.severity_level = some "low" ∧
    severity_scale_val (some "low") < severity_scale_val (some exC7.severity_level) := by
  constructor
  · have e1 : severity_scale_val (some "high") = 3 := by decide
    have e2 : severity_scale_val (some "critical") = 4 := by decide
    have emc : most_common_risk (risk_counts [ptC7]) = none := by decide
    have eids : report_ids [ptC7] = [7] := by decide
    have eag : emotion_agg [ptC7] = [] := by decide
    have eps : panic_scores [ptC7] = [] := by decide
    have eev : event_types_set [ptC7] = [] := by decide
    norm_num [mergeHotspot, severity_vals, listMax, rev_severity, avg_lat, avg_lon,
      total_confidence, guarded_total_confidence, exC7, ptC7, max_def,
      e1, e2, emc, eids, eag, eps, eev]
  · decide

/-- C7 amended: the merged severity_level is the reverse mapping (default
"low") of the maximum of the existing numeric severity and the batch's
confidence-weighted severity values; and whenever that maximum is one of
the exact keys 1, 2, 3, 4 (for example when all contributing confidences
are exactly 1) the merged level never ranks below the existing level.  (The
unconditioned "never ranks below" of the original claim is refuted by
merge_severity_rank_counterexample: a non-integer weighted maximum falls
back to "low".) -/
theorem merge_severity_spec (ex : CompositeHotspot) (pts : List Point)
    (h2 : CompositeHotspot) (h : mergeHotspot ex pts = some h2) :
    h2.severity_level =
      rev_severity (listMax ((severity_scale_val (some ex.severity_level) : ℚ))
        (severity_vals pts)) ∧
    (listMax ((severity_scale_val (some ex.severity_level) : ℚ)) (severity_vals pts) ∈
        ({1, 2, 3, 4} : Set ℚ) →
      severity_scale_val (some ex.severity_level) ≤
        severity_scale_val (some h2.severity_level)) := by
  obtain ⟨hs, _⟩ := mergeHotspot_some_fields ex pts h2 h
  refine ⟨hs, ?_⟩
  intro hmem
  have hexle : ((severity_scale_val (some ex.severity_level) : ℚ)) ≤
      listMax ((severity_scale_val (some ex.severity_level) : ℚ)) (severity_vals pts) :=
    le_listMax _ _
  simp only [Set.mem_insert_iff, Set.mem_singleton_iff] at hmem
  rcases hmem with hm | hm | hm | hm <;> rw [hs, hm] <;> rw [hm] at hexle
  · have hle : severity_scale_val (some ex.severity_level) ≤ 1 := by exact_mod_cast hexle
    have hv : rev_severity 1 = "low" := by norm_num [rev_severity]
    rw [hv]
    have hv2 : severity_scale_val (some "low") = 1 := by decide
    rw [hv2]
    exact hle
  · have hle : severity_scale_val (some ex.severity_level) ≤ 2 := by exact_mod_cast hexle
    have hv : rev_severity 2 = "medium" := by norm_num [rev_severity]
    rw [hv]
    have hv2 : severity_scale_val (some "medium") = 2 := by decide
    rw [hv2]
    exact hle
  · have hle : severity_scale_val (some ex.severity_level) ≤ 3 := by exact_mod_cast hexle
    have hv : rev_severity 3 = "high" := by norm_num [rev_severity]
    rw [hv]
    have hv2 : severity_scale_val (some "high") = 3 := by decide
    rw [hv2]
    exact hle
  · have hle : severity_scale_val (some ex.severity_level) ≤ 4 := by exact_mod_cast hexle
    have hv : rev_severity 4 = "critical" := by norm_num [rev_severity]
    rw [hv]
    have hv2 : severity_scale_val (some "critical") = 4 := by decide
    rw [hv2]
    exact hle

/-- Witness for the amended C7: merging a critical confidence-1 point into a
severity-medium hotspot produces severity "critical", not below "medium". -/
theorem merge_severity_spec_witness :
    h2W7.severity_level =
      rev_severity (listMax ((severity_scale_val (some exW7.severity_level) : ℚ))
        (severity_vals [ptW7])) ∧
    severity_scale_val (some exW7.severity_level) ≤
      severity_scale_val (some h2W7.severity_level) := by
  have e1 : severity_scale_val (some "medium") = 2 := by decide
  have e2 : severity_scale_val (some "critical") = 4 := by decide
  have emc : most_common_risk (risk_counts [ptW7]) = none := by decide
  have eids : report_ids [ptW7] = [3] := by decide
  have eag : emotion_agg [ptW7] = [] := by decide
  have eps : panic_scores [ptW7] = [] := by decide
  have eev : event_types_set [ptW7] = [] := by decide
  have esv : severity_vals [ptW7] = [4] := by norm_num [severity_vals, ptW7, e2]
  have eal : avg_lat [ptW7] = 0 := by
    norm_num [avg_lat, total_confidence, guarded_total_confidence, ptW7]
  have eol : avg_lon [ptW7] = 0 := by
    norm_num [avg_lon, total_confidence, guarded_total_confidence, ptW7]
  have h := merge_severity_spec exW7 [ptW7] h2W7 (by
    norm_num [mergeHotspot, listMax, rev_severity, max_def, exW7, h2W7,
      e1, emc, eids, eag, eps, eev, esv, eal, eol])
  refine ⟨h.1, h.2 ?_⟩
  norm_num [listMax, max_def, exW7, e1, esv, Set.mem_insert_iff, Set.mem_singleton_iff]

/-- C8 counterexample: the batch [ptC8a, ptC8b] tallies risk low once and
risk high once; the existing risk_level is "high", yet the merge stores
"low" (Counter.most_common breaks the tie by first encounter), although the
batch tally of "low" is not strictly more frequent than that of "high". -/
theorem merge_risk_tie_counterexample :
    risk_counts [ptC8a, ptC8b] = [("low", 1), ("high", 1)] ∧
    (mergeHotspot exC8 [ptC8a, ptC8b]).map CompositeHotspot.risk_level = some "low" ∧
    exC8.risk_level = "high" := by
  refine ⟨by decide, ?_, rfl⟩
  have emc : most_common_risk (risk_counts [ptC8a, ptC8b]) = some "low" := by decide
  have eids : report_ids [ptC8a, ptC8b] = [1, 2] := by decide
  norm_num [mergeHotspot, emc, eids]

/-- C8 amended: after a merge, risk_level stays unchanged iff the batch
tallies no risk levels at all; otherwise it is replaced by the batch's most
frequent risk level, ties broken in favour of the first level encountered
(witnessed by the split of the tally list around the chosen entry, with
strictly smaller counts before it and no larger count after it).  (The
original "only when strictly more frequent than the existing level's tally"
is refuted by merge_risk_tie_counterexample.) -/
theorem merge_risk_spec (ex : CompositeHotspot) (pts : List Point) (h2 : CompositeHotspot)
    (h : mergeHotspot ex pts = some h2) :
    (risk_counts pts = [] → h2.risk_level = ex.risk_level) ∧
    (∀ q0 rest, risk_counts pts = q0 :: rest →
      ∃ l₁ l₂ q, risk_counts pts = l₁ ++ q :: l₂ ∧ h2.risk_level = q.1 ∧
        (∀ x ∈ l₁, x.2 < q.2) ∧ (∀ x ∈ l₂, x.2 ≤ q.2)) := by
  obtain ⟨_, hr⟩ := mergeHotspot_some_fields ex pts h2 h
  constructor
  · intro hempty
    rw [hr, hempty]
    rfl
  · intro q0 rest hcons
    obtain ⟨l₁, l₂, heq, h1, h2f⟩ :=
      Checker.argmaxAcc_first_max (fun q : String × ℕ => q.2) rest q0
    refine ⟨l₁, l₂, Checker.argmaxAcc (fun q : String × ℕ => q.2) q0 rest, ?_, ?_, h1, h2f⟩
    · rw [hcons]; exact heq
    · rw [hr, hcons]
      rfl

/-- Witness for the amended C8: a batch tallying only risk "low" replaces the
existing "high" with "low", the unique (hence first) maximal tally. -/
theorem merge_risk_spec_witness :
    (risk_counts [ptC8a] = [] → h2W8.risk_level = exC8.risk_level) ∧
    (∀ q0 rest, risk_counts [ptC8a] = q0 :: rest →
      ∃ l₁ l₂ q, risk_counts [ptC8a] = l₁ ++ q :: l₂ ∧ h2W8.risk_level = q.1 ∧
        (∀ x ∈ l₁, x.2 < q.2) ∧ (∀ x ∈ l₂, x.2 ≤ q.2)) :=
  merge_risk_spec exC8 [ptC8a] h2W8 (by
    have e0 : severity_scale_val (some "low") = 1 := by decide
    have e1 : severity_scale_val (none : Option String) = 1 := by decide
    have emc : most_common_risk (risk_counts [ptC8a]) = some "low" := by decide
    have eids : report_ids [ptC8a] = [1] := by decide
    have eag : emotion_agg [ptC8a] = [] := by decide
    have eps : panic_scores [ptC8a] = [] := by decide
    have eev : event_types_set [ptC8a] = [] := by decide
    have esv : severity_vals [ptC8a] = [1] := by norm_num [severity_vals, ptC8a, e1]
    have eal : avg_lat [ptC8a] = 0 := by
      norm_num [avg_lat, total_confidence, guarded_total_confidence, ptC8a]
    have eol : avg_lon [ptC8a] = 0 := by
      norm_num [avg_lon, total_confidence, guarded_total_confidence, ptC8a]
    norm_num [mergeHotspot, listMax, rev_severity, max_def, exC8, h2W8,
      e0, emc, eids, eag, eps, eev, esv, eal, eol])

theorem clusterStep_subset {α : Type} (near : α → α → Bool) (G : List (List α)) (x : α) :
    ∀ g ∈ G, ∃ g2 ∈ clusterStep near G x, ∀ a ∈ g, a ∈ g2 := by
  intro g hg
  by_cases ht : g.any (fun y => near x y) = true
  · refine ⟨(G.filter (fun g => g.any (fun y => near x y))).flatten ++ [x], ?_, ?_⟩
    · exact List.mem_cons_self _ _
    · intro a ha
      exact List.mem_append_left _ (List.mem_flatten.mpr ⟨g, List.mem_filter.mpr ⟨hg, ht⟩, ha⟩)
  · refine ⟨g, ?_, fun a ha => ha⟩
    have hf : (g.any fun y => near x y) = false := Bool.eq_false_iff.mpr ht
    exact List.mem_cons_of_mem _ (List.mem_filter.mpr ⟨hg, by simp [hf]⟩)

theorem clusterStep_mem_first {α : Type} (near : α → α → Bool) (G : List (List α)) (x : α) :
    ∃ g2 ∈ clusterStep near G x, x ∈ g2 :=
  ⟨(G.filter (fun g => g.any (fun y => near x y))).flatten ++ [x],
    List.mem_cons_self _ _,
    List.mem_append_right _ (List.mem_singleton_self x)⟩

theorem clusterStep_merge {α : Type} (near : α → α → Bool) (G : List (List α)) (x : α)
    (g : List α) (hg : g ∈ G) (y : α) (hy : y ∈ g) (hxy : near x y = true) :
    ∃ g2 ∈ clusterStep near G x, x ∈ g2 ∧ ∀ a ∈ g, a ∈ g2 := by
  have ht : (g.any fun z => near x z) = true := List.any_eq_true.mpr ⟨y, hy, hxy⟩
  refine ⟨(G.filter (fun g => g.any (fun y => near x y))).flatten ++ [x], ?_, ?_, ?_⟩
  · exact List.mem_cons_self _ _
  · exact List.mem_append_right _ (List.mem_singleton_self x)
  · intro a ha
    exact List.mem_append_left _ (List.mem_flatten.mpr ⟨g, List.mem_filter.mpr ⟨hg, ht⟩, ha⟩)

theorem clusterStep_flatten_perm {α : Type} (near : α → α → Bool) (G : List (List α)) (x : α) :
    (clusterStep near G x).flatten.Perm (G.flatten ++ [x]) := by
  unfold clusterStep
  rw [List.flatten_cons]
  refine (Checker.append_singleton_perm _ _ x).trans ?_
  have h3 := List.Perm.flatten (List.filter_append_perm (fun g => g.any fun y => near x y) G)
  rw [List.flatten_append] at h3
  exact List.Perm.append_right [x] h3

theorem foldl_clusterStep_flatten_perm {α : Type} (near : α → α → Bool) :
    ∀ (l : List α) (G : List (List α)),
      ((l.foldl (clusterStep near) G).flatten).Perm (G.flatten ++ l) := by
  intro l
  induction l with
  | nil => intro G; simp
  | cons x xs ih =>
    intro G
    rw [List.foldl_cons]
    have h2 := ih (clusterStep near G x)
    have h3 : ((clusterStep near G x).flatten ++ xs).Perm ((G.flatten ++ [x]) ++ xs) :=
      List.Perm.append_right _ (clusterStep_flatten_perm near G x)
    have h4 : (G.flatten ++ [x]) ++ xs = G.flatten ++ (x :: xs) := by simp
    exact (h2.trans h3).trans (by rw [h4])

theorem foldl_clusterStep_pair {α : Type} (near : α → α → Bool) (x y : α)
    (hxy : near x y = true) (hyx : near y x = true) :
    ∀ (l : List α) (G : List (List α)),
      ((∃ g ∈ G, x ∈ g ∧ y ∈ g) ∨
       ((∃ g ∈ G, x ∈ g) ∧ y ∈ l) ∨
       ((∃ g ∈ G, y ∈ g) ∧ x ∈ l) ∨
       (x ∈ l ∧ y ∈ l)) →
      ∃ g ∈ l.foldl (clusterStep near) G, x ∈ g ∧ y ∈ g := by
  intro l
  induction l with
  | nil =>
    intro G h
    rcases h with h | ⟨_, hy⟩ | ⟨_, hx⟩ | ⟨hx, _⟩
    · exact h
    · exact absurd hy (by simp)
    · exact absurd hx (by simp)
    · exact absurd hx (by simp)
  | cons z rest ih =>
    intro G h
    rw [List.foldl_cons]
    apply ih
    rcases h with ⟨g, hg, hxg, hyg⟩ | ⟨⟨g, hg, hxg⟩, hy⟩ | ⟨⟨g, hg, hyg⟩, hx⟩ | ⟨hx, hy⟩
    · obtain ⟨g2, hg2, hsub⟩ := clusterStep_subset near G z g hg
      exact Or.inl ⟨g2, hg2, hsub x hxg, hsub y hyg⟩
    · rcases List.mem_cons.mp hy with rfl | hy
      · obtain ⟨g2, hg2, hzg2, hsub⟩ := clusterStep_merge near G y g hg x hxg hyx
        exact Or.inl ⟨g2, hg2, hsub x hxg, hzg2⟩
      · obtain ⟨g2, hg2, hsub⟩ := clusterStep_subset near G z g hg
        exact Or.inr (Or.inl ⟨⟨g2, hg2, hsub x hxg⟩, hy⟩)
    · rcases List.mem_cons.mp hx with rfl | hx
      · obtain ⟨g2, hg2, hzg2, hsub⟩ := clusterStep_merge near G x g hg y hyg hxy
        exact Or.inl ⟨g2, hg2, hzg2, hsub y hyg⟩
      · obtain ⟨g2, hg2, hsub⟩ := clusterStep_subset near G z g hg
        exact Or.inr (Or.inr (Or.inl ⟨⟨g2, hg2, hsub y hyg⟩, hx⟩))
    · rcases List.mem_cons.mp hx with hx1 | hx1
      · rcases List.mem_cons.mp hy with hy1 | hy1
        · obtain ⟨g2, hg2, hzg⟩ := clusterStep_mem_first near G z
          exact Or.inl ⟨g2, hg2, by rw [hx1]; exact hzg, by rw [hy1]; exact hzg⟩
        · obtain ⟨g2, hg2, hzg⟩ := clusterStep_mem_first near G z
          exact Or.inr (Or.inl ⟨⟨g2, hg2, by rw [hx1]; exact hzg⟩, hy1⟩)
      · rcases List.mem_cons.mp hy with hy1 | hy1
        · obtain ⟨g2, hg2, hzg⟩ := clusterStep_mem_first near G z
          exact Or.inr (Or.inr (Or.inl ⟨⟨g2, hg2, by rw [hy1]; exact hzg⟩, hx1⟩))
        · exact Or.inr (Or.inr (Or.inr ⟨hx1, hy1⟩))

theorem foldl_clusterStep_not_covered {α : Type} (near : α → α → Bool) (z : α) :
    ∀ (l : List α) (G : List (List α)),
      (∀ g ∈ G, z ∉ g) → z ∉ l →
      ∀ g ∈ l.foldl (clusterStep near) G, z ∉ g := by
  intro l
  induction l with
  | nil => intro G hG _ g hg; exact hG g hg
  | cons w rest ih =>
    intro G hG hzl
    rw [List.foldl_cons]
    apply ih
    · intro g hg
      unfold clusterStep at hg
      rcases List.mem_cons.mp hg with rfl | hg
      · intro hzin
        rcases List.mem_append.mp hzin with hz1 | hz2
        · obtain ⟨t, ht, hzt⟩ := List.mem_flatten.mp hz1
          exact hG t (List.mem_filter.mp ht).1 hzt
        · have hzw : z = w := List.mem_singleton.mp hz2
          exact hzl (by simp [hzw])
      · exact hG g (List.mem_filter.mp hg).1
    · intro hz
      exact hzl (List.mem_cons_of_mem _ hz)

theorem foldl_clusterStep_singleton_invariant {α : Type} (near : α → α → Bool) (z : α) :
    ∀ (l : List α) (G : List (List α)),
      [z] ∈ G → (∀ g ∈ G, z ∈ g → g = [z]) →
      (∀ w ∈ l, near w z = false ∧ w ≠ z) →
      [z] ∈ l.foldl (clusterStep near) G ∧
        ∀ g ∈ l.foldl (clusterStep near) G, z ∈ g → g = [z] := by
  intro l
  induction l with
  | nil => intro G h1 h2 _; exact ⟨h1, h2⟩
  | cons w rest ih =>
    intro G h1 h2 h3
    rw [List.foldl_cons]
    apply ih
    · have hz : ([z].any fun y => near w y) = false := by
        simp [(h3 w (by simp)).1]
      unfold clusterStep
      exact List.mem_cons_of_mem _ (List.mem_filter.mpr ⟨h1, by simp [hz]⟩)
    · intro g hg hzg
      unfold clusterStep at hg
      rcases List.mem_cons.mp hg with rfl | hg
      · exfalso
        rcases List.mem_append.mp hzg with hz1 | hz2
        · obtain ⟨t, ht, hzt⟩ := List.mem_flatten.mp hz1
          have htG := (List.mem_filter.mp ht).1
          have htny := (List.mem_filter.mp ht).2
          have hteq : t = [z] := h2 t htG hzt
          rw [hteq] at htny
          simp [(h3 w (by simp)).1] at htny
        · exact (h3 w (by simp)).2 (List.mem_singleton.mp hz2).symm
      · exact h2 g (List.mem_filter.mp hg).1 hzg
    · intro v hv
      exact h3 v (by simp [hv])

/-- C5: for any symmetric neighbourhood test (in the program, haversine
great-circle distance at most 5 km with Earth radius 6371 km, evaluated by
DBSCAN with min_samples=1), cluster_points puts any two neighbouring points
of the input into a common group, and a point that appears once and is not
near any other point of the input forms the singleton group [z], which no
other group intersects. -/
theorem cluster_points_spec (near : Point → Point → Bool)
    (hsym : ∀ a b, near a b = near b a) (pts : List Point) :
    (∀ x y, x ∈ pts → y ∈ pts → near x y = true →
      ∃ g ∈ cluster_points near pts, x ∈ g ∧ y ∈ g) ∧
    (∀ z, pts.count z = 1 → (∀ y ∈ pts, y ≠ z → near z y = false) →
      [z] ∈ cluster_points near pts ∧
        ∀ g ∈ cluster_points near pts, z ∈ g → g = [z]) := by
  constructor
  · intro x y hx hy hxy
    exact foldl_clusterStep_pair near x y hxy (by rw [hsym]; exact hxy) pts []
      (Or.inr (Or.inr (Or.inr ⟨hx, hy⟩)))
  · intro z hcount hfar
    have hz : z ∈ pts := by
      by_contra hzn
      rw [List.count_eq_zero_of_not_mem hzn] at hcount
      exact absurd hcount (by norm_num)
    obtain ⟨l₁, l₂, rfl⟩ := List.append_of_mem hz
    have hcnt : l₁.count z + (l₂.count z + 1) = 1 := by
      simpa [List.count_append, List.count_cons] using hcount
    have hz1 : z ∉ l₁ := by
      rw [← List.count_eq_zero]
      omega
    have hz2 : z ∉ l₂ := by
      rw [← List.count_eq_zero]
      omega
    rw [cluster_points, List.foldl_append, List.foldl_cons]
    have hnotcov : ∀ g ∈ l₁.foldl (clusterStep near) [], z ∉ g :=
      foldl_clusterStep_not_covered near z l₁ [] (by simp) hz1
    have hflat := foldl_clusterStep_flatten_perm near l₁ []
    have hmem : ∀ g ∈ l₁.foldl (clusterStep near) [], ∀ a ∈ g, a ∈ l₁ := by
      intro g hg a ha
      have hfl : a ∈ (l₁.foldl (clusterStep near) []).flatten :=
        List.mem_flatten.mpr ⟨g, hg, ha⟩
      have := hflat.mem_iff.mp hfl
      simpa using this
    generalize hG1 : l₁.foldl (clusterStep near) [] = G1 at hnotcov hmem ⊢
    have hall : ∀ g ∈ G1, (g.any fun y => near z y) = false := by
      intro g hg
      rw [Bool.eq_false_iff]
      intro hany
      obtain ⟨y, hyg, hnzy⟩ := List.any_eq_true.mp hany
      have hyl : y ∈ l₁ := hmem g hg y hyg
      have hyne : y ≠ z := fun h => hz1 (h ▸ hyl)
      have hfalse := hfar y (List.mem_append_left _ hyl) hyne
      rw [hfalse] at hnzy
      exact absurd hnzy (by simp)
    have hstep : clusterStep near G1 z = [z] :: G1 := by
      unfold clusterStep
      have hfilter1 : G1.filter (fun g => g.any fun y => near z y) = [] := by
        rw [List.filter_eq_nil_iff]
        intro g hg
        simp [hall g hg]
      have hfilter2 : G1.filter (fun g => !(g.any fun y => near z y)) = G1 := by
        rw [List.filter_eq_self]
        intro g hg
        simp [hall g hg]
      rw [hfilter1, hfilter2]
      simp
    rw [hstep]
    apply foldl_clusterStep_singleton_invariant near z l₂ ([z] :: G1)
    · exact List.mem_cons_self _ _
    · intro g hg hzg
      rcases List.mem_cons.mp hg with rfl | hg
      · rfl
      · exact absurd hzg (hnotcov g hg)
    · intro w hw
      have hwne : w ≠ z := fun h => hz2 (h ▸ hw)
      refine ⟨?_, hwne⟩
      rw [hsym]
      exact hfar w (List.mem_append_right _ (List.mem_cons_of_mem _ hw)) hwne

/-- Witness for C5: with the kind-equality neighbourhood test, the two human
points group together and the lone disaster point is a singleton group. -/
theorem cluster_points_spec_witness :
    (∃ g ∈ cluster_points nearW [pW5a, pW5b, pW5z], pW5a ∈ g ∧ pW5b ∈ g) ∧
    ([pW5z] ∈ cluster_points nearW [pW5a, pW5b, pW5z] ∧
      ∀ g ∈ cluster_points nearW [pW5a, pW5b, pW5z], pW5z ∈ g → g = [pW5z]) := by
  have h := cluster_points_spec nearW
    (fun a b => decide_eq_decide.mpr eq_comm) [pW5a, pW5b, pW5z]
  exact ⟨h.1 pW5a pW5b (by decide) (by decide) (by decide),
         h.2 pW5z (by decide) (by decide)⟩

/-- Witness for C10: a source confidence of exactly 0 produces a point of
confidence 1, and the singleton group of that point does not trigger the
zero-total-weight guard. -/
theorem process_hotspot_confidence_spec_witness :
    (ptW10.confidence ≠ 0 ∧
      ((payW10.confidence = none ∨ payW10.confidence = some 0) → ptW10.confidence = 1)) ∧
    (total_confidence [ptW10] ≠ 0 ∧
      guarded_total_confidence [ptW10] = total_confidence [ptW10]) :=
  ⟨process_hotspot_confidence_spec.1 PointKind.human (some (0, 0)) payW10 ptW10
      (by norm_num [process_hotspot, processedConfidence, payW10, ptW10]),
   process_hotspot_confidence_spec.2 [ptW10] (by simp)
      (by
        intro p hp
        rw [List.mem_singleton.mp hp]
        rfl)⟩

end Detecter

namespace Geo

/-- C9: a blank or whitespace-only location returns no result with no
sleeping, no outbound request and unchanged rate-limit state; and a
transport failure or timeout (the err outcome, covering every exception the
except block catches) returns no result instead of propagating. -/
theorem geocode_spec (last now : ℚ) (tr : Transport) (loc : String) :
    ((loc = "" ∨ SIHP.pyStrip loc = "") →
      geocode last now tr loc =
        { result := none, slept := 0, requested := false, last_call_time := last }) ∧
    (tr = Transport.err → (geocode last now tr loc).result = none) := by
  constructor
  · intro hb
    unfold geocode
    rw [if_pos hb]
  · intro htr
    subst htr
    unfold geocode
    by_cases hb : loc = "" ∨ SIHP.pyStrip loc = ""
    · rw [if_pos hb]
    · rw [if_neg hb]

/-- Witness for C9: a whitespace-only location and a failing transport on a
real location both resolve to no result. -/
theorem geocode_spec_witness :
    geocode 0 10 Transport.err "   " =
      { result := none, slept := 0, requested := false, last_call_time := 0 } ∧
    (geocode 0 10 Transport.err "London").result = none :=
  ⟨(geocode_spec 0 10 Transport.err "   ").1 (Or.inr (by decide)),
   (geocode_spec 0 10 Transport.err "London").2 rfl⟩

end Geo
